import Mathlib

/-!
Shallow embedding of `beanstalkc.py`, a beanstalkd client library.

The client talks to the daemon over a socket.  We embed the protocol layer by
making the network input explicit: each operation takes the status line that
`_read_response` would obtain from `readline()` (a byte string) and, for
body-bearing responses, the byte stream that follows the status line.
Byte strings are `List Nat`; failures (Python exceptions) are the error side
of `Except`.
-/

namespace Beanstalkc

/-- Byte strings (Python `bytes`) as lists of byte values. -/
abbrev Bytes := List Nat

/-- ASCII bytes of a string literal, for status tokens such as `b'RESERVED'`. -/
def bs (s : String) : Bytes := s.toList.map Char.toNat

/-- The exceptions the embedded code can raise.  `socketError`,
`commandFailed`, `unexpectedResponse` and `deadlineSoon` model the classes of
`beanstalkc.py`; `valueError`, `indexError` and `keyError` model the Python
builtins raised by failed `int()`, a failed subscript and a missing dict key. -/
inductive PyErr where
  | socketError
  | commandFailed (verb : Bytes) (status : Bytes) (results : List Bytes)
  | unexpectedResponse (verb : Bytes) (status : Bytes) (results : List Bytes)
  | deadlineSoon (results : List Bytes)
  | valueError
  | indexError
  | keyError
deriving DecidableEq, Repr

instance {ε α : Type} [DecidableEq ε] [DecidableEq α] :
    DecidableEq (Except ε α) := fun x y =>
  match x, y with
  | .ok a, .ok b =>
    if h : a = b then .isTrue (by rw [h])
    else .isFalse (fun he => h (Except.ok.inj he))
  | .ok _, .error _ => .isFalse (fun he => Except.noConfusion he)
  | .error _, .ok _ => .isFalse (fun he => Except.noConfusion he)
  | .error a, .error b =>
    if h : a = b then .isTrue (by rw [h])
    else .isFalse (fun he => h (Except.error.inj he))

/-- ASCII whitespace, the separator set of Python `bytes.split()` with no
argument: space, tab, linefeed, vertical tab, formfeed, carriage return. -/
def isWSB (b : Nat) : Bool :=
  b = 32 || b = 9 || b = 10 || b = 11 || b = 12 || b = 13

/-- Worker for `splitWS`; `acc` holds the bytes of the current token,
most recent first. -/
def splitWSAux : Bytes → Bytes → List Bytes
  | [], acc => if acc = [] then [] else [acc.reverse]
  | b :: rest, acc =>
    if isWSB b then
      if acc = [] then splitWSAux rest []
      else acc.reverse :: splitWSAux rest []
    else splitWSAux rest (b :: acc)

/-- Python `bytes.split()`: split on runs of ASCII whitespace, dropping
leading, trailing and repeated separators. -/
def splitWS (l : Bytes) : List Bytes := splitWSAux l []

/-- Python `int()` on an all-digit byte string: `some` of the decimal value,
`none` (ValueError) when empty or containing a non-digit. -/
def digitsToNat? (t : Bytes) : Option Nat :=
  if t ≠ [] ∧ t.all (fun b => 48 ≤ b && b ≤ 57) then
    some (Nat.ofDigits 10 ((t.map (fun b => b - 48)).reverse))
  else none

/-- Python `int()` on a byte token: an optional single leading sign
(`-` is 45, `+` is 43) followed by decimal digits. -/
def pyInt (t : Bytes) : Option Int :=
  match t with
  | [] => none
  | b :: rest =>
    if b = 45 then (digitsToNat? rest).map (fun n => -(n : Int))
    else if b = 43 then (digitsToNat? rest).map (fun n => (n : Int))
    else (digitsToNat? t).map (fun n => (n : Int))

/-- Worker for `natTok`: peel decimal digits from the low end, prepending
their ASCII bytes to `acc`; `fuel` bounds the recursion (any `fuel ≥ n`
suffices). -/
def natTokAux : Nat → Nat → Bytes → Bytes
  | 0, _, acc => acc
  | _ + 1, 0, acc => acc
  | fuel + 1, n + 1, acc =>
    natTokAux fuel ((n + 1) / 10) (((n + 1) % 10 + 48) :: acc)

/-- Python `b'%d' % n` for a natural number: big-endian decimal digits. -/
def natTok (n : Nat) : Bytes :=
  if n = 0 then [48] else natTokAux n n []

/-- Python `b'%d' % i` for an int: optional minus sign, then digits. -/
def intTok (i : Int) : Bytes :=
  if i < 0 then 45 :: natTok i.natAbs else natTok i.toNat

/-- `Connection._read_response`, applied to the line `readline()` returned:
an empty line (EOF) is a `SocketError`; otherwise the line is split on
whitespace into the status token and the argument tokens.  A nonempty line
that is all whitespace makes `response[0]` fail with IndexError. -/
def read_response (line : Bytes) : Except PyErr (Bytes × List Bytes) :=
  if line = [] then .error .socketError
  else
    match splitWS line with
    | [] => .error .indexError
    | status :: results => .ok (status, results)

/-- `command.split()[0]`: the verb of a command.  Every command the client
builds starts with a nonempty verb, so the IndexError case cannot arise and
we return `[]` there. -/
def cmdVerb (command : Bytes) : Bytes :=
  (splitWS command).headD []

/-- `Connection._interact`: send `command`, read one status line, and
dispatch on the status token: argument tokens on an expected success,
`CommandFailed (verb, status, results)` on an expected failure,
`UnexpectedResponse (verb, status, results)` otherwise. -/
def interact (command : Bytes) (line : Bytes)
    (expected_ok : List Bytes) (expected_err : List Bytes) :
    Except PyErr (List Bytes) := do
  let (status, results) ← read_response line
  if status ∈ expected_ok then
    return results
  else if status ∈ expected_err then
    throw (.commandFailed (cmdVerb command) status results)
  else
    throw (.unexpectedResponse (cmdVerb command) status results)

/-- Python `file.read(amount)` on a byte stream: up to `amount` bytes and the
rest of the stream; a negative amount reads everything. -/
def pyRead (amount : Int) (stream : Bytes) : Bytes × Bytes :=
  if amount < 0 then (stream, [])
  else (stream.take amount.toNat, stream.drop amount.toNat)

/-- `Connection._read_body`: read `size` bytes of body, then 2 trailer bytes
(discarded, not validated); raise `SocketError` when `size > 0` and the body
read came back empty.  Returns the body and the remaining stream. -/
def read_body (size : Int) (stream : Bytes) : Except PyErr (Bytes × Bytes) :=
  let (body, rest) := pyRead size stream
  let (_, rest2) := pyRead 2 rest
  if size > 0 ∧ body = [] then .error .socketError
  else .ok (body, rest2)

/-- Module constant `DEFAULT_PRIORITY = 2 ** 31`. -/
def DEFAULT_PRIORITY : Int := 2 ^ 31

/-- A `Job` value: server-assigned id, opaque byte body and the `reserved`
flag.  The `conn` back-reference is modelled separately: the Job methods below
take the connection's behaviour as an explicit argument. -/
structure Job where
  jid : Int
  body : Bytes
  reserved : Bool
deriving DecidableEq, Repr

/-- `Connection._interact_value`: `_interact(...)[0]` — the first argument
token of a successful response (IndexError when there is none). -/
def interact_value (command : Bytes) (line : Bytes)
    (expected_ok : List Bytes) (expected_err : List Bytes) :
    Except PyErr Bytes := do
  let results ← interact command line expected_ok expected_err
  match results with
  | r :: _ => return r
  | [] => throw .indexError

/-- `Connection._interact_job`: unpack the successful response into
`jid, size` (ValueError unless exactly two tokens), read `int(size)` body
bytes plus the trailer, and build `Job(self, int(jid), body, reserved)`.
The `int()` calls fail with ValueError on a non-numeric token; as in the
source, `int(size)` is evaluated before the body read and `int(jid)` after
it.  Returns the job together with the rest of the stream. -/
def interact_job (command : Bytes) (line : Bytes) (stream : Bytes)
    (expected_ok : List Bytes) (expected_err : List Bytes)
    (reserved : Bool) : Except PyErr (Job × Bytes) := do
  let results ← interact command line expected_ok expected_err
  match results with
  | [jid, size] =>
    match pyInt size with
    | none => throw .valueError
    | some sz => do
      let (body, rest) ← read_body sz stream
      match pyInt jid with
      | none => throw .valueError
      | some j => return (⟨j, body, reserved⟩, rest)
  | _ => throw .valueError

/-- `Connection._interact_peek`: `_interact_job` with the fixed
`FOUND`/`NOT_FOUND` status sets and `reserved=False`; a `CommandFailed` is
swallowed and turned into `None` (no bytes beyond the line were consumed). -/
def interact_peek (command : Bytes) (line : Bytes) (stream : Bytes) :
    Except PyErr (Option Job × Bytes) :=
  match interact_job command line stream [bs "FOUND"] [bs "NOT_FOUND"] false with
  | .ok (j, rest) => .ok (some j, rest)
  | .error (.commandFailed _ _ _) => .ok (none, stream)
  | .error e => .error e

/-- The command bytes `Connection.put` sends:
`b'put %d %d %d %d\r\n%b\r\n' % (priority, delay, ttr, len(body), body)`. -/
def putCmd (priority delay ttr : Int) (body : Bytes) : Bytes :=
  bs "put " ++ intTok priority ++ bs " " ++ intTok delay ++ bs " " ++
    intTok ttr ++ bs " " ++ natTok body.length ++ bs "\r\n" ++ body ++ bs "\r\n"

/-- `Connection.put` (response handling): `int` of the single argument of an
`INSERTED` response; `JOB_TOO_BIG`, `BURIED`, `DRAINING` are the declared
failure statuses.  The `body: bytes` validation is enforced by the type of
`body` here. -/
def put (priority delay ttr : Int) (body : Bytes) (line : Bytes) :
    Except PyErr Int := do
  let jid ← interact_value (putCmd priority delay ttr body) line
    [bs "INSERTED"] [bs "JOB_TOO_BIG", bs "BURIED", bs "DRAINING"]
  match pyInt jid with
  | some n => return n
  | none => throw .valueError

/-- `Connection.reserve(timeout)`: `reserve` or `reserve-with-timeout %d`,
success `RESERVED`, declared failures `DEADLINE_SOON` and `TIMED_OUT`.
A `CommandFailed` is caught and unpacked: `TIMED_OUT` becomes `None`,
`DEADLINE_SOON` becomes `DeadlineSoon(results)`; any other caught status
would fall off the end of the handler, returning `None`. -/
def reserveCmd (timeout : Option Int) : Bytes :=
  match timeout with
  | some t => bs "reserve-with-timeout " ++ intTok t ++ bs "\r\n"
  | none => bs "reserve\r\n"

def reserve (timeout : Option Int) (line : Bytes) (stream : Bytes) :
    Except PyErr (Option Job × Bytes) :=
  match interact_job (reserveCmd timeout) line stream
      [bs "RESERVED"] [bs "DEADLINE_SOON", bs "TIMED_OUT"] true with
  | .ok (j, rest) => .ok (some j, rest)
  | .error (.commandFailed _ status results) =>
    if status = bs "TIMED_OUT" then .ok (none, stream)
    else if status = bs "DEADLINE_SOON" then .error (.deadlineSoon results)
    else .ok (none, stream)
  | .error e => .error e

/-- `Connection.peek(jid)`. -/
def peek (jid : Int) (line : Bytes) (stream : Bytes) :
    Except PyErr (Option Job × Bytes) :=
  interact_peek (bs "peek " ++ intTok jid ++ bs "\r\n") line stream

/-- `Connection.peek_ready()`. -/
def peek_ready (line : Bytes) (stream : Bytes) :
    Except PyErr (Option Job × Bytes) :=
  interact_peek (bs "peek-ready\r\n") line stream

/-- `Connection.peek_delayed()`. -/
def peek_delayed (line : Bytes) (stream : Bytes) :
    Except PyErr (Option Job × Bytes) :=
  interact_peek (bs "peek-delayed\r\n") line stream

/-- `Connection.peek_buried()`. -/
def peek_buried (line : Bytes) (stream : Bytes) :
    Except PyErr (Option Job × Bytes) :=
  interact_peek (bs "peek-buried\r\n") line stream

/-- `Connection.ignore(name)`: `int` of the `WATCHING` response's first
token; a `CommandFailed` (declared failure `NOT_IGNORED`) is caught and `1`
returned instead.  The `int()` call sits inside the `try`, but a ValueError
is not caught — only `CommandFailed` is. -/
def ignore (name : Bytes) (line : Bytes) : Except PyErr Int :=
  let attempt : Except PyErr Int := do
    let v ← interact_value (bs "ignore " ++ name ++ bs "\r\n") line
      [bs "WATCHING"] [bs "NOT_IGNORED"]
    match pyInt v with
    | some n => return n
    | none => throw .valueError
  match attempt with
  | .ok n => .ok n
  | .error (.commandFailed _ _ _) => .ok 1
  | .error e => .error e

/-- The Connection calls a `Job` method can delegate to (the job
interactors of `Connection`, identified by the command they send). -/
inductive ConnCall where
  | delete (jid : Int)
  | release (jid : Int) (priority : Int) (delay : Int)
  | bury (jid : Int) (priority : Int)
  | touch (jid : Int)
  | statsJob (jid : Int)
  | kickJob (jid : Int)
deriving DecidableEq, Repr

/-- The value a delegated Connection call produces.  `stats_job` returns the
decoded YAML document — a dict when a YAML parser is configured (we keep only
integer values, which is all `Job._priority` reads), raw bytes otherwise;
the other job interactors return Python `None`. -/
inductive PyVal where
  | dict (entries : List (String × Int))
  | raw (b : Bytes)
  | none
deriving DecidableEq, Repr

/-- The behaviour of the owning Connection as seen by a `Job` method: for
each delegated call, either the value it returns or the exception it raises
(a `CommandFailed` on a declared failure status such as `NOT_FOUND`, an
`UnexpectedResponse`, or a transport `SocketError`). -/
abbrev Conn := ConnCall → Except PyErr PyVal

/-- Outcome of one `Job` method call: the returned value or raised
exception, the job's state afterwards, and the Connection calls made, in
order. -/
structure JobStep where
  result : Except PyErr PyVal
  job : Job
  calls : List ConnCall
deriving DecidableEq, Repr

/-- `Job._priority`: `stats = self.stats()` (which delegates to
`conn.stats_job(self.jid)`); `stats['pri']` when the result is a dict
(KeyError when the key is absent), `DEFAULT_PRIORITY` otherwise. -/
def Job.priorityLookup (j : Job) (conn : Conn) : Except PyErr Int :=
  match conn (.statsJob j.jid) with
  | .error e => .error e
  | .ok (.dict d) =>
    match d.lookup "pri" with
    | some p => .ok p
    | Option.none => .error .keyError
  | .ok _ => .ok DEFAULT_PRIORITY

/-- `priority or self._priority()` in `Job.release`/`Job.bury`: Python `or`
takes the fallback when `priority` is falsy, i.e. `None` or `0`.  Returns
the priority to send and the Connection calls the evaluation made. -/
def Job.resolvePriority (j : Job) (priority : Option Int) (conn : Conn) :
    Except PyErr Int × List ConnCall :=
  match priority with
  | some v =>
    if v = 0 then (j.priorityLookup conn, [.statsJob j.jid])
    else (.ok v, [])
  | Option.none => (j.priorityLookup conn, [.statsJob j.jid])

/-- `Job.delete`: `self.conn.delete(self.jid)` unconditionally, then
`self.reserved = False` — reached only when the delegated call returned. -/
def Job.delete (j : Job) (conn : Conn) : JobStep :=
  match conn (.delete j.jid) with
  | .ok _ => ⟨.ok .none, { j with reserved := false }, [.delete j.jid]⟩
  | .error e => ⟨.error e, j, [.delete j.jid]⟩

/-- `Job.release(priority=None, delay=0)`: nothing when not reserved;
otherwise `self.conn.release(self.jid, priority or self._priority(), delay)`
followed by `self.reserved = False`. -/
def Job.release (j : Job) (priority : Option Int) (delay : Int)
    (conn : Conn) : JobStep :=
  if j.reserved then
    match j.resolvePriority priority conn with
    | (.error e, cs) => ⟨.error e, j, cs⟩
    | (.ok pri, cs) =>
      match conn (.release j.jid pri delay) with
      | .ok _ =>
        ⟨.ok .none, { j with reserved := false }, cs ++ [.release j.jid pri delay]⟩
      | .error e => ⟨.error e, j, cs ++ [.release j.jid pri delay]⟩
  else ⟨.ok .none, j, []⟩

/-- `Job.bury(priority=None)`: nothing when not reserved; otherwise
`self.conn.bury(self.jid, priority or self._priority())` followed by
`self.reserved = False`. -/
def Job.bury (j : Job) (priority : Option Int) (conn : Conn) : JobStep :=
  if j.reserved then
    match j.resolvePriority priority conn with
    | (.error e, cs) => ⟨.error e, j, cs⟩
    | (.ok pri, cs) =>
      match conn (.bury j.jid pri) with
      | .ok _ =>
        ⟨.ok .none, { j with reserved := false }, cs ++ [.bury j.jid pri]⟩
      | .error e => ⟨.error e, j, cs ++ [.bury j.jid pri]⟩
  else ⟨.ok .none, j, []⟩

/-- `Job.touch`: nothing when not reserved; otherwise
`self.conn.touch(self.jid)` — `reserved` is never assigned. -/
def Job.touch (j : Job) (conn : Conn) : JobStep :=
  if j.reserved then
    match conn (.touch j.jid) with
    | .ok _ => ⟨.ok .none, j, [.touch j.jid]⟩
    | .error e => ⟨.error e, j, [.touch j.jid]⟩
  else ⟨.ok .none, j, []⟩

/-- `Job.kick`: `self.conn.kick_job(self.jid)` unconditionally, no state
change. -/
def Job.kick (j : Job) (conn : Conn) : JobStep :=
  match conn (.kickJob j.jid) with
  | .ok _ => ⟨.ok .none, j, [.kickJob j.jid]⟩
  | .error e => ⟨.error e, j, [.kickJob j.jid]⟩

/-- Modelled from the spec (§6, §8: a daemon that stores jobs faithfully;
the daemon itself is not part of this repository): how the daemon recovers
the job body from a `put` command — read the command line up to the first
LF, parse `put <pri> <delay> <ttr> <nbytes>`, then take exactly `nbytes`
following bytes as the body, which must be followed by the CRLF trailer. -/
def daemonParsePut (cmd : Bytes) : Option Bytes :=
  let line := cmd.takeWhile (fun b => b ≠ 10)
  match splitWS line with
  | [verb, _pri, _delay, _ttr, nbytes] =>
    if verb = bs "put" then
      match pyInt nbytes with
      | some n =>
        if n < 0 then Option.none
        else
          let rest := cmd.drop (line.length + 1)
          let body := rest.take n.toNat
          if rest.drop n.toNat = bs "\r\n" ∧ (body.length : Int) = n then
            some body
          else Option.none
      | Option.none => Option.none
    else Option.none
  | _ => Option.none

/-- The status line a faithful daemon sends when `reserve` succeeds on a
stored job: `RESERVED <id> <bytes>\r\n` with `<bytes>` the stored body's
exact length. -/
def reservedLine (jid : Nat) (storedBody : Bytes) : Bytes :=
  bs "RESERVED " ++ natTok jid ++ bs " " ++ natTok storedBody.length ++ bs "\r\n"

/-- The bytes a faithful daemon sends after that status line: the stored
body, the CRLF trailer, then whatever comes next on the stream. -/
def reservedStream (storedBody : Bytes) (rest : Bytes) : Bytes :=
  storedBody ++ bs "\r\n" ++ rest

/-! Tokenisation lemmas: how `splitWS` splits a line built from non-whitespace
tokens and separators, and the `natTok`/`pyInt` round trip. -/

theorem splitWSAux_append_tok (tok : Bytes) (rest : Bytes) (acc : Bytes)
    (h : ∀ b ∈ tok, isWSB b = false) :
    splitWSAux (tok ++ rest) acc = splitWSAux rest (tok.reverse ++ acc) := by
  induction tok generalizing acc with
  | nil => simp
  | cons b t ih =>
    have hb : isWSB b = false := h b (List.mem_cons_self b t)
    have ht : ∀ x ∈ t, isWSB x = false := fun x hx => h x (List.mem_cons_of_mem b hx)
    have step : splitWSAux ((b :: t) ++ rest) acc = splitWSAux (t ++ rest) (b :: acc) := by
      simp [splitWSAux, hb]
    rw [step, ih (b :: acc) ht]
    simp [List.append_assoc]

theorem splitWSAux_all_ws (l : Bytes) (h : ∀ b ∈ l, isWSB b = true) (acc : Bytes) :
    splitWSAux l acc = if acc = [] then [] else [acc.reverse] := by
  induction l generalizing acc with
  | nil => rfl
  | cons b t ih =>
    have hb : isWSB b = true := h b (List.mem_cons_self b t)
    have ht : ∀ x ∈ t, isWSB x = true := fun x hx => h x (List.mem_cons_of_mem b hx)
    by_cases hacc : acc = []
    · subst hacc
      simp [splitWSAux, hb, ih ht []]
    · simp [splitWSAux, hb, hacc, ih ht []]

theorem splitWS_token_cons (tok : Bytes) (c : Nat) (rest : Bytes)
    (hne : tok ≠ []) (hnw : ∀ b ∈ tok, isWSB b = false) (hc : isWSB c = true) :
    splitWS (tok ++ c :: rest) = tok :: splitWS rest := by
  unfold splitWS
  rw [splitWSAux_append_tok tok (c :: rest) [] hnw]
  have hrev : tok.reverse ++ [] ≠ [] := by simp [hne]
  simp only [splitWSAux, hc, if_true, List.append_nil, hrev, if_false,
    List.reverse_eq_nil_iff]
  simp [hne]

theorem splitWS_token_trail (tok : Bytes) (trail : Bytes)
    (hne : tok ≠ []) (hnw : ∀ b ∈ tok, isWSB b = false)
    (htrail : ∀ b ∈ trail, isWSB b = true) :
    splitWS (tok ++ trail) = [tok] := by
  unfold splitWS
  rw [splitWSAux_append_tok tok trail [] hnw, splitWSAux_all_ws trail htrail]
  simp [hne]

theorem splitWS_nil : splitWS [] = [] := rfl

theorem splitWS_ne_nil_of_eq {line : Bytes} {s : Bytes} {args : List Bytes}
    (h : splitWS line = s :: args) : line ≠ [] := by
  intro hl
  rw [hl, splitWS_nil] at h
  exact List.noConfusion h

theorem isWSB_false_of_digit {b : Nat} (h : 48 ≤ b) : isWSB b = false := by
  have h32 : b ≠ 32 := by omega
  have h9 : b ≠ 9 := by omega
  have h10 : b ≠ 10 := by omega
  have h11 : b ≠ 11 := by omega
  have h12 : b ≠ 12 := by omega
  have h13 : b ≠ 13 := by omega
  simp [isWSB, h32, h9, h10, h11, h12, h13]

theorem natTokAux_eq_digits (fuel : Nat) :
    ∀ n acc, n ≤ fuel →
      natTokAux fuel n acc = ((Nat.digits 10 n).map (fun d => d + 48)).reverse ++ acc := by
  induction fuel with
  | zero =>
    intro n acc hn
    have : n = 0 := Nat.le_zero.mp hn
    subst this
    simp [natTokAux]
  | succ fuel ih =>
    intro n acc hn
    match n with
    | 0 => simp [natTokAux]
    | m + 1 =>
      have hpos : 0 < m + 1 := Nat.succ_pos m
      have hdiv : (m + 1) / 10 ≤ fuel := by
        have : (m + 1) / 10 < m + 1 := Nat.div_lt_self hpos (by omega)
        omega
      rw [natTokAux, ih ((m + 1) / 10) _ hdiv,
        Nat.digits_def' (b := 10) (by omega) hpos]
      simp [List.append_assoc]

theorem natTok_eq_digits (n : Nat) (hn : n ≠ 0) :
    natTok n = ((Nat.digits 10 n).map (fun d => d + 48)).reverse := by
  unfold natTok
  rw [if_neg hn, natTokAux_eq_digits n n [] (Nat.le_refl n), List.append_nil]

theorem natTok_mem {n b : Nat} (hb : b ∈ natTok n) : 48 ≤ b ∧ b ≤ 57 := by
  by_cases hn : n = 0
  · subst hn
    have h0 : natTok 0 = [48] := rfl
    rw [h0, List.mem_singleton] at hb
    omega
  · rw [natTok_eq_digits n hn, List.mem_reverse, List.mem_map] at hb
    obtain ⟨d, hd, rfl⟩ := hb
    have : d < 10 := Nat.digits_lt_base (by omega) hd
    omega

theorem natTok_ne_nil (n : Nat) : natTok n ≠ [] := by
  by_cases hn : n = 0
  · subst hn
    simp [natTok]
  · rw [natTok_eq_digits n hn]
    simp [Nat.digits_ne_nil_iff_ne_zero.mpr hn]

theorem natTok_not_ws {n : Nat} : ∀ b ∈ natTok n, isWSB b = false :=
  fun b hb => isWSB_false_of_digit (natTok_mem hb).1

theorem natTok_ne_ten {n : Nat} : ∀ b ∈ natTok n, b ≠ 10 := by
  intro b hb
  have := natTok_mem hb
  omega

theorem intTok_mem {i : Int} {b : Nat} (hb : b ∈ intTok i) :
    b = 45 ∨ (48 ≤ b ∧ b ≤ 57) := by
  unfold intTok at hb
  by_cases hi : i < 0
  · rw [if_pos hi] at hb
    rcases List.mem_cons.mp hb with h | h
    · exact Or.inl h
    · exact Or.inr (natTok_mem h)
  · rw [if_neg hi] at hb
    exact Or.inr (natTok_mem hb)

theorem intTok_ne_nil (i : Int) : intTok i ≠ [] := by
  unfold intTok
  by_cases hi : i < 0
  · simp [hi]
  · simp only [hi, if_false]
    exact natTok_ne_nil _

theorem intTok_not_ws {i : Int} : ∀ b ∈ intTok i, isWSB b = false := by
  intro b hb
  rcases intTok_mem hb with h | h
  · subst h
    rfl
  · exact isWSB_false_of_digit h.1

theorem intTok_ne_ten {i : Int} : ∀ b ∈ intTok i, b ≠ 10 := by
  intro b hb
  rcases intTok_mem hb with h | h <;> omega

theorem digitsToNat_natTok (n : Nat) : digitsToNat? (natTok n) = some n := by
  by_cases hn : n = 0
  · subst hn
    decide
  · rw [natTok_eq_digits n hn]
    unfold digitsToNat?
    rw [if_pos]
    · congr 1
      rw [List.map_reverse, List.reverse_reverse, List.map_map]
      have : ((fun b => b - 48) ∘ fun d => d + 48) = id := by
        funext d
        simp
      rw [this, List.map_id]
      exact Nat.ofDigits_digits 10 n
    · constructor
      · simp [Nat.digits_ne_nil_iff_ne_zero.mpr hn]
      · rw [List.all_eq_true]
        intro b hb
        have hmem : b ∈ natTok n := by rw [natTok_eq_digits n hn]; exact hb
        have := natTok_mem hmem
        simp only [Bool.and_eq_true, decide_eq_true_eq]
        omega

theorem pyInt_natTok (n : Nat) : pyInt (natTok n) = some (n : Int) := by
  have hne := natTok_ne_nil n
  cases hT : natTok n with
  | nil => exact absurd hT hne
  | cons b rest =>
    have hb : 48 ≤ b ∧ b ≤ 57 := natTok_mem (hT ▸ List.mem_cons_self b rest)
    have h45 : ¬ b = 45 := by omega
    have h43 : ¬ b = 43 := by omega
    have hd := digitsToNat_natTok n
    rw [hT] at hd
    simp [pyInt, h45, h43, hd]

/-! Dispatch lemmas for `interact` and `interact_job`, shared by the claim
theorems below. -/

theorem interact_ok_of {line status : Bytes} {args : List Bytes}
    (command : Bytes) (expected_ok expected_err : List Bytes)
    (hline : splitWS line = status :: args) (hok : status ∈ expected_ok) :
    interact command line expected_ok expected_err = .ok args := by
  have hne : line ≠ [] := splitWS_ne_nil_of_eq hline
  simp [interact, read_response, hne, hline, hok, Bind.bind, Except.bind,
    pure, Except.pure, throw, throwThe, MonadExceptOf.throw]

theorem interact_err_of {line status : Bytes} {args : List Bytes}
    (command : Bytes) (expected_ok expected_err : List Bytes)
    (hline : splitWS line = status :: args)
    (hnok : status ∉ expected_ok) (herr : status ∈ expected_err) :
    interact command line expected_ok expected_err
      = .error (.commandFailed (cmdVerb command) status args) := by
  have hne : line ≠ [] := splitWS_ne_nil_of_eq hline
  simp [interact, read_response, hne, hline, hnok, herr, Bind.bind, Except.bind,
    pure, Except.pure, throw, throwThe, MonadExceptOf.throw]

theorem interact_unexpected_of {line status : Bytes} {args : List Bytes}
    (command : Bytes) (expected_ok expected_err : List Bytes)
    (hline : splitWS line = status :: args)
    (hnok : status ∉ expected_ok) (hnerr : status ∉ expected_err) :
    interact command line expected_ok expected_err
      = .error (.unexpectedResponse (cmdVerb command) status args) := by
  have hne : line ≠ [] := splitWS_ne_nil_of_eq hline
  simp [interact, read_response, hne, hline, hnok, hnerr, Bind.bind, Except.bind,
    pure, Except.pure, throw, throwThe, MonadExceptOf.throw]

theorem interact_job_of_interact_error {command line : Bytes}
    {eok eerr : List Bytes} {e : PyErr}
    (stream : Bytes) (r : Bool) (h : interact command line eok eerr = .error e) :
    interact_job command line stream eok eerr r = .error e := by
  simp [interact_job, h, Bind.bind, Except.bind]

/-! Claim theorems. -/

/-- C1: for every command, declared success-status set and declared
failure-status set, after sending the command and reading one status line,
`_interact` returns the argument tokens when the status token is in the
success set, raises `CommandFailed (verb, status, arguments)` when it is in
the failure set, and raises `UnexpectedResponse` with the same triple in
every other case. -/
theorem interact_dispatch (command line : Bytes)
    (expected_ok expected_err : List Bytes) (status : Bytes) (args : List Bytes)
    (hline : splitWS line = status :: args) :
    (status ∈ expected_ok →
      interact command line expected_ok expected_err = .ok args) ∧
    (status ∉ expected_ok → status ∈ expected_err →
      interact command line expected_ok expected_err
        = .error (.commandFailed (cmdVerb command) status args)) ∧
    (status ∉ expected_ok → status ∉ expected_err →
      interact command line expected_ok expected_err
        = .error (.unexpectedResponse (cmdVerb command) status args)) := by
  refine ⟨?_, ?_, ?_⟩
  · intro hok
    exact interact_ok_of command expected_ok expected_err hline hok
  · intro hnok herr
    exact interact_err_of command expected_ok expected_err hline hnok herr
  · intro hnok hnerr
    exact interact_unexpected_of command expected_ok expected_err hline hnok hnerr

/-- Witness for C1: the three dispatch outcomes at concrete inputs — a
`USING` success for `use`, a declared `NOT_FOUND` failure for `delete` and
an undeclared `OUT_OF_MEMORY` status for `touch`. -/
theorem interact_dispatch_witness :
    interact (bs "use a\r\n") (bs "USING a\r\n") [bs "USING"] []
      = .ok [bs "a"] ∧
    interact (bs "delete 1\r\n") (bs "NOT_FOUND\r\n") [bs "DELETED"] [bs "NOT_FOUND"]
      = .error (.commandFailed (bs "delete") (bs "NOT_FOUND") []) ∧
    interact (bs "touch 1\r\n") (bs "OUT_OF_MEMORY\r\n") [bs "TOUCHED"] [bs "NOT_FOUND"]
      = .error (.unexpectedResponse (bs "touch") (bs "OUT_OF_MEMORY") []) := by
  refine ⟨?_, ?_, ?_⟩
  · exact (interact_dispatch (bs "use a\r\n") (bs "USING a\r\n") [bs "USING"] []
      (bs "USING") [bs "a"] (by decide)).1 (by decide)
  · have h := (interact_dispatch (bs "delete 1\r\n") (bs "NOT_FOUND\r\n")
      [bs "DELETED"] [bs "NOT_FOUND"] (bs "NOT_FOUND") [] (by decide)).2.1
      (by decide) (by decide)
    rw [h]
    decide
  · have h := (interact_dispatch (bs "touch 1\r\n") (bs "OUT_OF_MEMORY\r\n")
      [bs "TOUCHED"] [bs "NOT_FOUND"] (bs "OUT_OF_MEMORY") [] (by decide)).2.2
      (by decide) (by decide)
    rw [h]
    decide

/-- C2: for every call to `reserve`, with or without a timeout, a
`TIMED_OUT` status makes `reserve` return `None` and raise nothing, and a
`DEADLINE_SOON` status makes it raise the dedicated `DeadlineSoon` condition
carrying the response arguments, not an ordinary `CommandFailed`. -/
theorem reserve_timeout_deadline (timeout : Option Int) (line stream : Bytes)
    (args : List Bytes) :
    (splitWS line = bs "TIMED_OUT" :: args →
      reserve timeout line stream = .ok (none, stream)) ∧
    (splitWS line = bs "DEADLINE_SOON" :: args →
      reserve timeout line stream = .error (.deadlineSoon args)) := by
  constructor
  · intro hline
    have hI := interact_err_of (reserveCmd timeout)
      [bs "RESERVED"] [bs "DEADLINE_SOON", bs "TIMED_OUT"] hline
      (by decide) (by decide)
    have hJ := interact_job_of_interact_error stream true hI
    unfold reserve
    rw [hJ]
    simp
  · intro hline
    have hI := interact_err_of (reserveCmd timeout)
      [bs "RESERVED"] [bs "DEADLINE_SOON", bs "TIMED_OUT"] hline
      (by decide) (by decide)
    have hJ := interact_job_of_interact_error stream true hI
    unfold reserve
    rw [hJ]
    simp [show ¬ (bs "DEADLINE_SOON" = bs "TIMED_OUT") from by decide]

/-- Witness for C2: a blocking `reserve` answered `TIMED_OUT` returns
`None`; `reserve(timeout=0)` answered `DEADLINE_SOON` raises `DeadlineSoon`
with no arguments. -/
theorem reserve_timeout_deadline_witness :
    reserve none (bs "TIMED_OUT\r\n") [] = .ok (none, []) ∧
    reserve (some 0) (bs "DEADLINE_SOON\r\n") [] = .error (.deadlineSoon []) :=
  ⟨(reserve_timeout_deadline none (bs "TIMED_OUT\r\n") [] []).1 (by decide),
   (reserve_timeout_deadline (some 0) (bs "DEADLINE_SOON\r\n") [] []).2 (by decide)⟩

/-- Counterexample to C3: a declared body length of 0 whose body read
returns no bytes is not a transport error — `_read_body` returns the empty
body successfully, because its guard is `size > 0 and not body`. -/
theorem read_body_zero_cex :
    read_body 0 [] ≠ .error .socketError ∧ read_body 0 [] = .ok ([], []) := by
  decide

/-- C3 as amended: the body-reading step fails with a transport error
exactly when the declared length is positive and the body read returns no
bytes; a declared length of 0 with an empty read succeeds, yielding the
empty body (and still consuming the 2 trailer bytes). -/
theorem read_body_error_iff (size : Int) (stream : Bytes) :
    (0 < size → (read_body size stream = .error .socketError ↔ stream = [])) ∧
    read_body 0 stream = .ok ([], stream.drop 2) := by
  constructor
  · intro hpos
    have hneg : ¬ size < 0 := by omega
    constructor
    · intro h
      by_contra hs
      cases hstream : stream with
      | nil => exact hs hstream
      | cons c rest =>
        rw [hstream] at h
        have htake : (c :: rest).take size.toNat ≠ [] := by
          have : 0 < size.toNat := by omega
          cases hn : size.toNat with
          | zero => omega
          | succ k => simp [List.take]
        simp [read_body, pyRead, hneg, htake] at h
    · intro hs
      subst hs
      have : size.toNat ≠ 0 := by omega
      simp [read_body, pyRead, hneg, hpos]
  · simp [read_body, pyRead]

/-- Witness for C3 (amended): length 3 against a closed stream is a
transport error; length 0 against the same closed stream returns the empty
body. -/
theorem read_body_error_iff_witness :
    read_body 3 [] = .error .socketError ∧ read_body 0 [] = .ok ([], []) := by
  constructor
  · exact ((read_body_error_iff 3 []).1 (by decide)).mpr rfl
  · exact (read_body_error_iff 0 []).2

/-- A Connection behaviour where every delegated call succeeds, for
concrete instantiations. -/
def demoConn : Conn := fun _ => .ok .none

/-- A Connection behaviour answering `NOT_FOUND` (a `CommandFailed`) to
`delete` and succeeding on everything else, for concrete instantiations. -/
def notFoundConn : Conn := fun c =>
  match c with
  | .delete _ => .error (.commandFailed (bs "delete") (bs "NOT_FOUND") [])
  | _ => .ok .none

/-- A Connection behaviour whose `stats_job` answers a dict with
`pri` mapped to 5, for concrete instantiations. -/
def statsConn : Conn := fun c =>
  match c with
  | .statsJob _ => .ok (.dict [("pri", 5)])
  | _ => .ok .none

/-- C5: for every Job whose `reserved` flag is false, `release`, `bury` and
`touch` are no-ops — no Connection call, no field change — while `delete`
always delegates to Connection regardless of the flag; `touch` never
changes the Job (so when it delegates with `reserved` true, the flag is
left unchanged). -/
theorem job_noop_unreserved (j : Job) (conn : Conn) (priority : Option Int)
    (delay : Int) :
    (j.reserved = false →
      j.release priority delay conn = ⟨.ok .none, j, []⟩ ∧
      j.bury priority conn = ⟨.ok .none, j, []⟩ ∧
      j.touch conn = ⟨.ok .none, j, []⟩) ∧
    (j.delete conn).calls = [ConnCall.delete j.jid] ∧
    (j.touch conn).job = j := by
  refine ⟨?_, ?_, ?_⟩
  · intro hres
    refine ⟨?_, ?_, ?_⟩
    · simp [Job.release, hres]
    · simp [Job.bury, hres]
    · simp [Job.touch, hres]
  · unfold Job.delete
    cases conn (.delete j.jid) <;> rfl
  · unfold Job.touch
    by_cases hres : j.reserved
    · simp only [hres, if_true]
      cases conn (.touch j.jid) <;> rfl
    · simp [hres]

/-- Witness for C5: a non-reserved Job leaves `release`, `bury` and `touch`
inert, and `delete` still issues its Connection call. -/
theorem job_noop_unreserved_witness :
    (Job.release ⟨5, [], false⟩ none 0 demoConn = ⟨.ok .none, ⟨5, [], false⟩, []⟩ ∧
     Job.bury ⟨5, [], false⟩ none demoConn = ⟨.ok .none, ⟨5, [], false⟩, []⟩ ∧
     Job.touch ⟨5, [], false⟩ demoConn = ⟨.ok .none, ⟨5, [], false⟩, []⟩) ∧
    (Job.delete ⟨5, [], false⟩ demoConn).calls = [ConnCall.delete 5] :=
  ⟨(job_noop_unreserved ⟨5, [], false⟩ demoConn none 0).1 rfl,
   (job_noop_unreserved ⟨5, [], false⟩ demoConn none 0).2.1⟩

/-- C10: if the delegated Connection call inside `Job.delete`,
`Job.release` or `Job.bury` raises, the `reserved` flag keeps its prior
value — the whole Job is unchanged, since `self.reserved = False` runs only
after the delegated call returns. -/
theorem job_unchanged_on_error (j : Job) (conn : Conn) (priority : Option Int)
    (delay : Int) (e : PyErr) :
    ((j.delete conn).result = .error e → (j.delete conn).job = j) ∧
    ((j.release priority delay conn).result = .error e →
      (j.release priority delay conn).job = j) ∧
    ((j.bury priority conn).result = .error e → (j.bury priority conn).job = j) := by
  refine ⟨?_, ?_, ?_⟩
  · unfold Job.delete
    cases conn (.delete j.jid) with
    | ok v => intro h; exact absurd h (by simp)
    | error e2 => intro h; rfl
  · unfold Job.release
    by_cases hres : j.reserved
    · simp only [hres, if_true]
      rcases hpr : j.resolvePriority priority conn with ⟨pr, cs⟩
      cases pr with
      | error e2 => intro h; rfl
      | ok p =>
        cases hc : conn (.release j.jid p delay) with
        | ok v => simp [hc]
        | error e2 => simp [hc]
    · simp [hres]
  · unfold Job.bury
    by_cases hres : j.reserved
    · simp only [hres, if_true]
      rcases hpr : j.resolvePriority priority conn with ⟨pr, cs⟩
      cases pr with
      | error e2 => intro h; rfl
      | ok p =>
        cases hc : conn (.bury j.jid p) with
        | ok v => simp [hc]
        | error e2 => simp [hc]
    · simp [hres]

/-- Witness for C10: with a Connection answering `NOT_FOUND` to `delete`,
the failing `Job.delete` leaves the reserved Job exactly as it was. -/
theorem job_unchanged_on_error_witness :
    (Job.delete ⟨5, [], true⟩ notFoundConn).job = ⟨5, [], true⟩ :=
  (job_unchanged_on_error ⟨5, [], true⟩ notFoundConn none 0
      (.commandFailed (bs "delete") (bs "NOT_FOUND") [])).1 (by decide)

/-- Counterexample to C6: `Job.delete` does not swallow a server-side
`NOT_FOUND`.  After a successful delete clears `reserved`, a second
`Job.delete` on the same Job, answered `NOT_FOUND` by the server, re-raises
the `CommandFailed` to the caller — the Job method is not harmless. -/
theorem job_second_delete_cex :
    ((⟨5, bs "x", true⟩ : Job).delete demoConn).job = ⟨5, bs "x", false⟩ ∧
    (Job.delete ⟨5, bs "x", false⟩ notFoundConn).result
      = .error (.commandFailed (bs "delete") (bs "NOT_FOUND") []) := by
  decide

/-- C6 as amended: after a successful `Job.delete`, the further
lifecycle-mutating calls `release`, `bury` and `touch` on the same Job are
true no-ops (no Connection call, nothing raised), because `reserved` is now
false; a second `delete`, however, still delegates to Connection, and
whatever that delegated call raises (such as the `CommandFailed` from a
server `NOT_FOUND`) propagates through the Job method to the caller. -/
theorem job_after_delete (j : Job) (conn conn2 : Conn) (priority : Option Int)
    (delay : Int) (v : PyVal) (hok : conn (.delete j.jid) = .ok v) :
    ((j.delete conn).job.release priority delay conn2
        = ⟨.ok .none, (j.delete conn).job, []⟩) ∧
    ((j.delete conn).job.bury priority conn2
        = ⟨.ok .none, (j.delete conn).job, []⟩) ∧
    ((j.delete conn).job.touch conn2 = ⟨.ok .none, (j.delete conn).job, []⟩) ∧
    ((j.delete conn).job.delete conn2).calls = [ConnCall.delete j.jid] ∧
    (∀ e, conn2 (.delete j.jid) = .error e →
      ((j.delete conn).job.delete conn2).result = .error e) := by
  have hjob : (j.delete conn).job = { j with reserved := false } := by
    simp [Job.delete, hok]
  rw [hjob]
  refine ⟨?_, ?_, ?_, ?_, ?_⟩
  · simp [Job.release]
  · simp [Job.bury]
  · simp [Job.touch]
  · unfold Job.delete
    cases conn2 (.delete j.jid) <;> rfl
  · intro e he
    simp [Job.delete, he]

/-- Witness for C6 (amended): a deleted Job ignores `release`, and a second
`delete` answered `NOT_FOUND` raises that `CommandFailed`. -/
theorem job_after_delete_witness :
    ((⟨5, [], true⟩ : Job).delete demoConn).job.release none 0 notFoundConn
      = ⟨.ok .none, ((⟨5, [], true⟩ : Job).delete demoConn).job, []⟩ ∧
    (((⟨5, [], true⟩ : Job).delete demoConn).job.delete notFoundConn).result
      = .error (.commandFailed (bs "delete") (bs "NOT_FOUND") []) := by
  have h := job_after_delete (⟨5, [], true⟩ : Job) demoConn notFoundConn
    none 0 .none rfl
  exact ⟨h.1, h.2.2.2.2 (.commandFailed (bs "delete") (bs "NOT_FOUND") []) rfl⟩

theorem Job.release_reserved_ok (j : Job) (priority : Option Int) (delay : Int)
    (conn : Conn) (p : Int) (cs : List ConnCall)
    (hres : j.reserved = true) (hpr : j.resolvePriority priority conn = (.ok p, cs)) :
    j.release priority delay conn =
      match conn (.release j.jid p delay) with
      | .ok _ =>
        ⟨.ok .none, { j with reserved := false }, cs ++ [.release j.jid p delay]⟩
      | .error e => ⟨.error e, j, cs ++ [.release j.jid p delay]⟩ := by
  unfold Job.release
  rw [hres, if_pos rfl, hpr]

theorem Job.release_reserved_err (j : Job) (priority : Option Int) (delay : Int)
    (conn : Conn) (e : PyErr) (cs : List ConnCall)
    (hres : j.reserved = true)
    (hpr : j.resolvePriority priority conn = (.error e, cs)) :
    j.release priority delay conn = ⟨.error e, j, cs⟩ := by
  unfold Job.release
  rw [hres, if_pos rfl, hpr]

theorem Job.bury_reserved_ok (j : Job) (priority : Option Int)
    (conn : Conn) (p : Int) (cs : List ConnCall)
    (hres : j.reserved = true) (hpr : j.resolvePriority priority conn = (.ok p, cs)) :
    j.bury priority conn =
      match conn (.bury j.jid p) with
      | .ok _ => ⟨.ok .none, { j with reserved := false }, cs ++ [.bury j.jid p]⟩
      | .error e => ⟨.error e, j, cs ++ [.bury j.jid p]⟩ := by
  unfold Job.bury
  rw [hres, if_pos rfl, hpr]

theorem Job.bury_reserved_err (j : Job) (priority : Option Int)
    (conn : Conn) (e : PyErr) (cs : List ConnCall)
    (hres : j.reserved = true)
    (hpr : j.resolvePriority priority conn = (.error e, cs)) :
    j.bury priority conn = ⟨.error e, j, cs⟩ := by
  unfold Job.bury
  rw [hres, if_pos rfl, hpr]

/-- Counterexample to C7: a caller-supplied priority of 0 is not sent as
given.  Python evaluates `priority or self._priority()`, and 0 is falsy, so
`Job.release(priority=0)` performs the stats lookup and sends the fetched
priority (5 here) instead of the supplied 0. -/
theorem job_priority_zero_cex :
    (Job.release ⟨7, [], true⟩ (some 0) 0 statsConn).calls
      = [ConnCall.statsJob 7, ConnCall.release 7 5 0] ∧
    (Job.release ⟨7, [], true⟩ (some 0) 0 statsConn).calls
      ≠ [ConnCall.release 7 0 0] := by
  decide

/-- C7 as amended: for a reserved Job, `Job.release` (and `Job.bury`, which
follows the same rule) sends the caller-given priority exactly when that
priority is truthy (nonzero); when the priority argument is omitted — or
zero, which Python `or` treats the same — it first fetches the current
priority via a stats lookup and sends that; in both cases `reserved` is
cleared once the delegated call succeeds. -/
theorem job_priority_fallback (j : Job) (conn : Conn) (v : Int)
    (p0 : Option Int) (delay : Int)
    (hres : j.reserved = true) (hv : v ≠ 0) (hfalsy : p0 = none ∨ p0 = some 0) :
    ((j.release (some v) delay conn).calls = [ConnCall.release j.jid v delay]) ∧
    ((j.bury (some v) conn).calls = [ConnCall.bury j.jid v]) ∧
    (∀ r, conn (.release j.jid v delay) = .ok r →
      j.release (some v) delay conn
        = ⟨.ok .none, { j with reserved := false }, [ConnCall.release j.jid v delay]⟩) ∧
    ((j.release p0 delay conn).calls.head? = some (ConnCall.statsJob j.jid)) ∧
    ((j.bury p0 conn).calls.head? = some (ConnCall.statsJob j.jid)) ∧
    (∀ p r, j.priorityLookup conn = .ok p → conn (.release j.jid p delay) = .ok r →
      j.release p0 delay conn
        = ⟨.ok .none, { j with reserved := false },
           [ConnCall.statsJob j.jid, ConnCall.release j.jid p delay]⟩) ∧
    (∀ r, conn (.bury j.jid v) = .ok r →
      j.bury (some v) conn
        = ⟨.ok .none, { j with reserved := false }, [ConnCall.bury j.jid v]⟩) ∧
    (∀ p r, j.priorityLookup conn = .ok p → conn (.bury j.jid p) = .ok r →
      j.bury p0 conn
        = ⟨.ok .none, { j with reserved := false },
           [ConnCall.statsJob j.jid, ConnCall.bury j.jid p]⟩) := by
  have hgiven : j.resolvePriority (some v) conn = (.ok v, []) := by
    simp [Job.resolvePriority, hv]
  have hfall : j.resolvePriority p0 conn
      = (j.priorityLookup conn, [.statsJob j.jid]) := by
    rcases hfalsy with h | h <;> subst h <;> simp [Job.resolvePriority]
  refine ⟨?_, ?_, ?_, ?_, ?_, ?_, ?_, ?_⟩
  · rw [Job.release_reserved_ok j (some v) delay conn v [] hres hgiven]
    cases conn (.release j.jid v delay) <;> rfl
  · rw [Job.bury_reserved_ok j (some v) conn v [] hres hgiven]
    cases conn (.bury j.jid v) <;> rfl
  · intro r hr
    rw [Job.release_reserved_ok j (some v) delay conn v [] hres hgiven, hr]
    simp
  · cases hlk : j.priorityLookup conn with
    | error e =>
      rw [Job.release_reserved_err j p0 delay conn e [.statsJob j.jid] hres
        (by rw [hfall, hlk])]
      rfl
    | ok p =>
      rw [Job.release_reserved_ok j p0 delay conn p [.statsJob j.jid] hres
        (by rw [hfall, hlk])]
      cases conn (.release j.jid p delay) <;> rfl
  · cases hlk : j.priorityLookup conn with
    | error e =>
      rw [Job.bury_reserved_err j p0 conn e [.statsJob j.jid] hres
        (by rw [hfall, hlk])]
      rfl
    | ok p =>
      rw [Job.bury_reserved_ok j p0 conn p [.statsJob j.jid] hres
        (by rw [hfall, hlk])]
      cases conn (.bury j.jid p) <;> rfl
  · intro p r hp hr
    rw [Job.release_reserved_ok j p0 delay conn p [.statsJob j.jid] hres
      (by rw [hfall, hp]), hr]
    simp
  · intro r hr
    rw [Job.bury_reserved_ok j (some v) conn v [] hres hgiven, hr]
    simp
  · intro p r hp hr
    rw [Job.bury_reserved_ok j p0 conn p [.statsJob j.jid] hres
      (by rw [hfall, hp]), hr]
    simp

/-- Witness for C7 (amended): priority 3 is sent as given (for release and
for bury, both clearing `reserved`); an omitted priority first triggers the
stats lookup (which answers 5) and then a release — or a bury — at
priority 5, again clearing `reserved`. -/
theorem job_priority_fallback_witness :
    (Job.release ⟨7, [], true⟩ (some 3) 0 statsConn).calls
      = [ConnCall.release 7 3 0] ∧
    Job.release ⟨7, [], true⟩ none 0 statsConn
      = ⟨.ok .none, ⟨7, [], false⟩, [ConnCall.statsJob 7, ConnCall.release 7 5 0]⟩ ∧
    Job.bury ⟨7, [], true⟩ (some 3) statsConn
      = ⟨.ok .none, ⟨7, [], false⟩, [ConnCall.bury 7 3]⟩ ∧
    Job.bury ⟨7, [], true⟩ none statsConn
      = ⟨.ok .none, ⟨7, [], false⟩, [ConnCall.statsJob 7, ConnCall.bury 7 5]⟩ := by
  have h := job_priority_fallback ⟨7, [], true⟩ statsConn 3 none 0
    rfl (by decide) (Or.inl rfl)
  exact ⟨h.1, h.2.2.2.2.2.1 5 .none (by decide) rfl,
    h.2.2.2.2.2.2.1 .none rfl, h.2.2.2.2.2.2.2 5 .none (by decide) rfl⟩

/-- C8: for every call to `ignore(name)`, a `NOT_IGNORED` answer (the named
tube is the last watched tube) is suppressed and the call returns the
success-shaped value 1 instead of raising; otherwise it returns the
watched-tube count parsed from the `WATCHING` response. -/
theorem ignore_last_tube (name line : Bytes) (args : List Bytes) :
    (splitWS line = bs "NOT_IGNORED" :: args → ignore name line = .ok 1) ∧
    (∀ tok rest n, splitWS line = bs "WATCHING" :: tok :: rest →
      pyInt tok = some n → ignore name line = .ok n) := by
  constructor
  · intro hline
    have hI := interact_err_of (bs "ignore " ++ name ++ bs "\r\n")
      [bs "WATCHING"] [bs "NOT_IGNORED"] hline (by decide) (by decide)
    unfold ignore interact_value
    rw [hI]
    rfl
  · intro tok rest n hline hn
    have hI := interact_ok_of (bs "ignore " ++ name ++ bs "\r\n")
      [bs "WATCHING"] [bs "NOT_IGNORED"] hline (by decide)
    unfold ignore interact_value
    rw [hI]
    simp only [Bind.bind, Except.bind, pure, Except.pure]
    rw [hn]

/-- Witness for C8: ignoring the last watched tube answers `NOT_IGNORED`
and still returns 1; a normal ignore answered `WATCHING 2` returns 2. -/
theorem ignore_last_tube_witness :
    ignore (bs "default") (bs "NOT_IGNORED\r\n") = .ok 1 ∧
    ignore (bs "default") (bs "WATCHING 2\r\n") = .ok 2 :=
  ⟨(ignore_last_tube (bs "default") (bs "NOT_IGNORED\r\n") []).1 (by decide),
   (ignore_last_tube (bs "default") (bs "WATCHING 2\r\n") []).2
     (bs "2") [] 2 (by decide) (by decide)⟩

theorem interact_job_reserved {command line stream : Bytes}
    {eok eerr : List Bytes} {r : Bool} {j : Job} {rest : Bytes}
    (h : interact_job command line stream eok eerr r = .ok (j, rest)) :
    j.reserved = r := by
  unfold interact_job at h
  cases hI : interact command line eok eerr with
  | error e =>
    rw [hI] at h
    simp [Bind.bind, Except.bind] at h
  | ok results =>
    rw [hI] at h
    simp only [Bind.bind, Except.bind] at h
    split at h
    · split at h
      · simp [throw, throwThe, MonadExceptOf.throw] at h
      · rename_i sz hsz
        cases hR : read_body sz stream with
        | error e =>
          rw [hR] at h
          simp [Bind.bind, Except.bind] at h
        | ok br =>
          rw [hR] at h
          simp only [Bind.bind, Except.bind] at h
          split at h
          · simp [throw, throwThe, MonadExceptOf.throw] at h
          · simp only [pure, Except.pure, Except.ok.injEq, Prod.mk.injEq] at h
            rw [← h.1]
    · simp [throw, throwThe, MonadExceptOf.throw] at h

theorem interact_peek_props (command line stream : Bytes) :
    (∀ v s res, interact_peek command line stream
        ≠ .error (.commandFailed v s res)) ∧
    (∀ args, splitWS line = bs "NOT_FOUND" :: args →
      interact_peek command line stream = .ok (none, stream)) ∧
    (∀ j rest, interact_peek command line stream = .ok (some j, rest) →
      j.reserved = false) := by
  refine ⟨?_, ?_, ?_⟩
  · intro v s res
    unfold interact_peek
    cases hJ : interact_job command line stream [bs "FOUND"] [bs "NOT_FOUND"] false with
    | ok jr => simp
    | error e => cases e <;> simp
  · intro args hline
    have hI := interact_err_of command [bs "FOUND"] [bs "NOT_FOUND"] hline
      (by decide) (by decide)
    have hJ := interact_job_of_interact_error stream false hI
    unfold interact_peek
    rw [hJ]
  · intro j rest h
    unfold interact_peek at h
    cases hJ : interact_job command line stream [bs "FOUND"] [bs "NOT_FOUND"] false with
    | ok jr =>
      obtain ⟨j1, r1⟩ := jr
      rw [hJ] at h
      simp only [Except.ok.injEq, Prod.mk.injEq, Option.some.injEq] at h
      exact h.1 ▸ interact_job_reserved hJ
    | error e =>
      rw [hJ] at h
      cases e <;> simp at h

/-- C9: for every peek variant — `peek(id)`, `peek_ready`, `peek_delayed`,
`peek_buried` — a `NOT_FOUND` answer yields `None` and the call never
propagates a `CommandFailed` to the caller, and a `FOUND` answer yields a
Job whose `reserved` flag is false. -/
theorem peek_variants (jid : Int) (line stream : Bytes)
    (p : Except PyErr (Option Job × Bytes))
    (hp : p = peek jid line stream ∨ p = peek_ready line stream ∨
          p = peek_delayed line stream ∨ p = peek_buried line stream) :
    (∀ v s res, p ≠ .error (.commandFailed v s res)) ∧
    (∀ args, splitWS line = bs "NOT_FOUND" :: args → p = .ok (none, stream)) ∧
    (∀ j rest, p = .ok (some j, rest) → j.reserved = false) := by
  rcases hp with h | h | h | h <;> subst h
  · exact interact_peek_props (bs "peek " ++ intTok jid ++ bs "\r\n") line stream
  · exact interact_peek_props (bs "peek-ready\r\n") line stream
  · exact interact_peek_props (bs "peek-delayed\r\n") line stream
  · exact interact_peek_props (bs "peek-buried\r\n") line stream

/-- Witness for C9: a `peek` for a nonexistent id answered `NOT_FOUND`
returns `None`, and a `peek_ready` answered `FOUND 7 1` yields a Job with
`reserved` false. -/
theorem peek_variants_witness :
    peek 5 (bs "NOT_FOUND\r\n") [] = .ok (none, []) ∧
    (Job.mk 7 (bs "x") false).reserved = false :=
  ⟨(peek_variants 5 (bs "NOT_FOUND\r\n") [] (peek 5 (bs "NOT_FOUND\r\n") [])
      (Or.inl rfl)).2.1 [] (by decide),
   (peek_variants 0 (bs "FOUND 7 1\r\n") (bs "x\r\n")
      (peek_ready (bs "FOUND 7 1\r\n") (bs "x\r\n")) (Or.inr (Or.inl rfl))).2.2
      ⟨7, bs "x", false⟩ [] (by decide)⟩


theorem takeWhile_append_of_all {p : Nat → Bool} (l r : Bytes)
    (hl : ∀ b ∈ l, p b = true) :
    (l ++ r).takeWhile p = l ++ r.takeWhile p := by
  induction l with
  | nil => simp
  | cons a t ih =>
    have ha := hl a (List.mem_cons_self a t)
    have ht : ∀ b ∈ t, p b = true := fun b hb => hl b (List.mem_cons_of_mem a hb)
    simp [List.takeWhile_cons, ha, ih ht]

theorem takeWhile_ne_ten (l r : Bytes) (hl : ∀ b ∈ l, b ≠ 10) :
    (l ++ 10 :: r).takeWhile (fun b => b ≠ 10) = l := by
  rw [takeWhile_append_of_all l (10 :: r) (fun b hb => by simp [hl b hb])]
  simp [List.takeWhile_cons]

theorem drop_append_cons (l : Bytes) (c : Nat) (r : Bytes) :
    (l ++ c :: r).drop (l.length + 1) = r := by
  have hsplit : l ++ c :: r = (l ++ [c]) ++ r := by simp
  have hlen : (l ++ [c]).length = l.length + 1 := by simp
  rw [hsplit, ← hlen, List.drop_left]

def putHdr (pri delay ttr : Int) (len : Nat) : Bytes :=
  [112, 117, 116, 32] ++ intTok pri ++ [32] ++ intTok delay ++ [32] ++
    intTok ttr ++ [32] ++ natTok len ++ [13]

theorem putCmd_decomp (pri delay ttr : Int) (body : Bytes) :
    putCmd pri delay ttr body
      = putHdr pri delay ttr body.length ++ 10 :: (body ++ [13, 10]) := by
  have h1 : bs "put " = [112, 117, 116, 32] := rfl
  have h2 : bs " " = [32] := rfl
  have h3 : bs "\r\n" = [13, 10] := rfl
  simp [putCmd, putHdr, h1, h2, h3]

theorem putHdr_ne_ten (pri delay ttr : Int) (len : Nat) :
    ∀ b ∈ putHdr pri delay ttr len, b ≠ 10 := by
  intro b hb
  unfold putHdr at hb
  simp only [List.mem_append] at hb
  rcases hb with ((((((((h | h) | h) | h) | h) | h) | h) | h) | h)
  · simp only [List.mem_cons, List.not_mem_nil, or_false] at h
    rcases h with h | h | h | h <;> omega
  · exact intTok_ne_ten b h
  · simp only [List.mem_singleton] at h
    omega
  · exact intTok_ne_ten b h
  · simp only [List.mem_singleton] at h
    omega
  · exact intTok_ne_ten b h
  · simp only [List.mem_singleton] at h
    omega
  · exact natTok_ne_ten b h
  · simp only [List.mem_singleton] at h
    omega

theorem splitWS_putHdr (pri delay ttr : Int) (len : Nat) :
    splitWS (putHdr pri delay ttr len)
      = [bs "put", intTok pri, intTok delay, intTok ttr, natTok len] := by
  have hshape : putHdr pri delay ttr len
      = bs "put" ++ 32 :: (intTok pri ++ 32 :: (intTok delay ++ 32 ::
          (intTok ttr ++ 32 :: (natTok len ++ [13])))) := by
    have hput : bs "put" = [112, 117, 116] := rfl
    simp [putHdr, hput]
  rw [hshape]
  rw [splitWS_token_cons (bs "put") 32 _ (by decide) (by decide) (by decide)]
  rw [splitWS_token_cons (intTok pri) 32 _ (intTok_ne_nil pri) intTok_not_ws (by decide)]
  rw [splitWS_token_cons (intTok delay) 32 _ (intTok_ne_nil delay) intTok_not_ws (by decide)]
  rw [splitWS_token_cons (intTok ttr) 32 _ (intTok_ne_nil ttr) intTok_not_ws (by decide)]
  rw [splitWS_token_trail (natTok len) [13] (natTok_ne_nil len) natTok_not_ws (by decide)]

theorem daemonParsePut_putCmd (pri delay ttr : Int) (body : Bytes) :
    daemonParsePut (putCmd pri delay ttr body) = some body := by
  unfold daemonParsePut
  rw [putCmd_decomp]
  rw [takeWhile_ne_ten _ _ (putHdr_ne_ten pri delay ttr body.length)]
  dsimp only
  rw [splitWS_putHdr]
  dsimp only
  rw [drop_append_cons]
  simp only [pyInt_natTok]
  have hn : ¬ ((body.length : Int) < 0) := by omega
  simp only [if_true, hn, if_false, Int.toNat_ofNat, List.take_left, List.drop_left]
  simp [show ([13, 10] : Bytes) = bs "\r\n" from rfl]



theorem splitWS_reservedLine (jid : Nat) (storedBody : Bytes) :
    splitWS (reservedLine jid storedBody)
      = [bs "RESERVED", natTok jid, natTok storedBody.length] := by
  have hshape : reservedLine jid storedBody
      = bs "RESERVED" ++ 32 :: (natTok jid ++ 32 ::
          (natTok storedBody.length ++ [13, 10])) := by
    have h1 : bs "RESERVED " = bs "RESERVED" ++ [32] := rfl
    have h2 : bs " " = [32] := rfl
    have h3 : bs "\r\n" = [13, 10] := rfl
    simp [reservedLine, h1, h2, h3]
  rw [hshape]
  rw [splitWS_token_cons (bs "RESERVED") 32 _ (by decide) (by decide) (by decide)]
  rw [splitWS_token_cons (natTok jid) 32 _ (natTok_ne_nil jid) natTok_not_ws (by decide)]
  rw [splitWS_token_trail (natTok storedBody.length) [13, 10]
    (natTok_ne_nil _) natTok_not_ws (by decide)]

theorem read_body_at_body (body rest : Bytes) :
    read_body (body.length : Int) (body ++ 13 :: 10 :: rest) = .ok (body, rest) := by
  have hneg : ¬ ((body.length : Int) < 0) := by omega
  have hcond : ¬ ((body.length : Int) > 0 ∧ body = []) := by
    rintro ⟨h1, h2⟩
    subst h2
    simp at h1
  simp only [read_body, pyRead, hneg, if_false, Int.toNat_ofNat, List.take_left,
    List.drop_left]
  simp [List.take_left, List.drop_left]
  intro h1 h2
  subst h2
  simp at h1

theorem reserve_roundtrip_ok (jid : Nat) (body rest : Bytes) :
    reserve none (reservedLine jid body) (reservedStream body rest)
      = .ok (some ⟨(jid : Int), body, true⟩, rest) := by
  have hline := splitWS_reservedLine jid body
  have hI := interact_ok_of (reserveCmd none) [bs "RESERVED"]
    [bs "DEADLINE_SOON", bs "TIMED_OUT"] hline (by decide)
  have hstream : reservedStream body rest = body ++ 13 :: 10 :: rest := by
    simp [reservedStream, show bs "\r\n" = [13, 10] from rfl]
  unfold reserve interact_job
  rw [hI, hstream]
  simp only [Bind.bind, Except.bind, pyInt_natTok, read_body_at_body,
    pure, Except.pure]



theorem splitWS_insertedLine (jid : Nat) :
    splitWS (bs "INSERTED " ++ natTok jid ++ bs "\r\n")
      = [bs "INSERTED", natTok jid] := by
  have hshape : bs "INSERTED " ++ natTok jid ++ bs "\r\n"
      = bs "INSERTED" ++ 32 :: (natTok jid ++ [13, 10]) := by
    have h1 : bs "INSERTED " = bs "INSERTED" ++ [32] := rfl
    have h3 : bs "\r\n" = [13, 10] := rfl
    simp [h1, h3]
  rw [hshape]
  rw [splitWS_token_cons (bs "INSERTED") 32 _ (by decide) (by decide) (by decide)]
  rw [splitWS_token_trail (natTok jid) [13, 10] (natTok_ne_nil jid)
    natTok_not_ws (by decide)]

theorem put_inserted (pri delay ttr : Int) (body : Bytes) (jid : Nat) :
    put pri delay ttr body (bs "INSERTED " ++ natTok jid ++ bs "\r\n")
      = .ok (jid : Int) := by
  have hI := interact_ok_of (putCmd pri delay ttr body) [bs "INSERTED"]
    [bs "JOB_TOO_BIG", bs "BURIED", bs "DRAINING"] (splitWS_insertedLine jid)
    (by decide)
  unfold put interact_value
  rw [hI]
  simp only [Bind.bind, Except.bind, pure, Except.pure, pyInt_natTok]

/-- C4: for every byte sequence body — arbitrary binary content and
embedded CRLF included — against a daemon that stores and returns jobs
faithfully, `put(body)` followed by `reserve()` yields a Job whose `body`
field equals the original bytes exactly: the daemon recovers exactly `body`
from the framed put command, `put` returns the new job id from the
`INSERTED` response, and `reserve` fed the faithful `RESERVED` response and
body stream returns that Job with the original bytes. -/
theorem put_reserve_roundtrip (body : Bytes) (pri delay ttr : Int) (jid : Nat)
    (rest : Bytes) :
    daemonParsePut (putCmd pri delay ttr body) = some body ∧
    put pri delay ttr body (bs "INSERTED " ++ natTok jid ++ bs "\r\n")
      = .ok (jid : Int) ∧
    reserve none (reservedLine jid body) (reservedStream body rest)
      = .ok (some ⟨(jid : Int), body, true⟩, rest) :=
  ⟨daemonParsePut_putCmd pri delay ttr body,
   put_inserted pri delay ttr body jid,
   reserve_roundtrip_ok jid body rest⟩

end Beanstalkc
